import Mathlib

/-!
# Style-variant resolution engine: shallow embedding

A shallow embedding of the variant-resolution engine consumed by
`packages/clerk-js/src/ui/primitives/Badge.tsx`.  The engine itself
(`createVariants`, `applyVariants`, `filterProps`, `createCssVariables` from
`../styledSystem`) is not part of the available sources, so those operations
are modelled from the specification (sections 4.1-4.4); the `Badge` component
is embedded from its source.

Data model:
* a property bag is an association list of JS-like values (a value may be the
  explicit `undefined`);
* a style description is an association list whose values are scalars or
  nested style descriptions (pseudo-states / variable-declaration blocks);
* a variant schema is a base style, an ordered list of named variant groups
  (each mapping a value name to a partial style description), and a default
  value per group.
-/

set_option autoImplicit false

namespace StyledSystem

/-- A JS-like value stored in a caller-supplied property bag.  `undef` is the
explicit `undefined`, distinct from the key being absent. -/
inductive PropVal where
  | undef : PropVal
  | str : String → PropVal
  | num : Int → PropVal
  | bool : Bool → PropVal
deriving DecidableEq, Repr

/-- A caller-supplied property bag: variant-selection keys and pass-through
keys together, in insertion order. -/
abbrev PropBag := List (String × PropVal)

/-- First-match lookup in a property bag (JS property access). -/
def bagLookup (props : PropBag) (key : String) : Option PropVal :=
  (props.find? (fun e => e.1 = key)).map (fun e => e.2)

/-- JS truthiness of a property value: `undefined`, the empty string, `0` and
`false` are falsy, everything else is truthy. -/
def truthy : PropVal → Bool
  | PropVal.undef => false
  | PropVal.str s => s ≠ ""
  | PropVal.num n => n ≠ 0
  | PropVal.bool b => b

/-- The string a property value turns into when used as an object key
(JS stringifies non-string keys); `undefined` selects no key at all because
resolution treats it like an absent property. -/
def propToKey : PropVal → Option String
  | PropVal.undef => none
  | PropVal.str s => some s
  | PropVal.num n => some (toString n)
  | PropVal.bool b => some (toString b)

mutual
/-- A value inside a style description: a scalar (string or number) or a
nested mapping (a pseudo-state block or a variable-declaration block). -/
inductive StyleVal where
  | str : String → StyleVal
  | num : Int → StyleVal
  | nested : StyleDesc → StyleVal
deriving DecidableEq, Repr

/-- A style description: an ordered association list from style-property
name to `StyleVal`. -/
inductive StyleDesc where
  | nil : StyleDesc
  | cons : String → StyleVal → StyleDesc → StyleDesc
deriving DecidableEq, Repr
end

namespace StyleDesc

/-- First-match lookup of a style-property key. -/
def lookup : StyleDesc → String → Option StyleVal
  | nil, _ => none
  | cons k v rest, key => if k = key then some v else rest.lookup key

/-- Whether a style description declares a key. -/
def hasKey (d : StyleDesc) (key : String) : Bool :=
  (d.lookup key).isSome

/-- Concatenation of two style descriptions. -/
def append : StyleDesc → StyleDesc → StyleDesc
  | nil, b => b
  | cons k v rest, b => cons k v (rest.append b)

/-- Entries of the first description whose key the second does not declare. -/
def removeKeys : StyleDesc → StyleDesc → StyleDesc
  | nil, _ => nil
  | cons k v rest, a =>
      if a.hasKey k then rest.removeKeys a else cons k v (rest.removeKeys a)

end StyleDesc

mutual
/-- Merge a value appearing under the same key in two style descriptions:
when both sides are nested mappings they are merged key-by-key, otherwise
the later (second) value replaces the earlier one. -/
def mergeVal : StyleVal → StyleVal → StyleVal
  | StyleVal.nested a, StyleVal.nested b =>
      StyleVal.nested ((mergeOver a b).append (b.removeKeys a))
  | StyleVal.nested _, StyleVal.str s => StyleVal.str s
  | StyleVal.nested _, StyleVal.num n => StyleVal.num n
  | StyleVal.str _, w => w
  | StyleVal.num _, w => w

/-- The entries of the first description, each merged with the second
description's value for the same key when one exists. -/
def mergeOver : StyleDesc → StyleDesc → StyleDesc
  | StyleDesc.nil, _ => StyleDesc.nil
  | StyleDesc.cons k v rest, b =>
      match b.lookup k with
      | some w => StyleDesc.cons k (mergeVal v w) (mergeOver rest b)
      | none => StyleDesc.cons k v (mergeOver rest b)
end

/-- Merge the second style description on top of the first,
property-by-property: on a key collision the second description's value wins
unless both values are nested mappings, which are merged recursively; keys
only in the second description are appended in their order. -/
def mergeDesc (a b : StyleDesc) : StyleDesc :=
  (mergeOver a b).append (b.removeKeys a)

/-- A variant group: a mapping from discrete value name to the partial style
description merged on top of the base when that value is selected. -/
abbrev VariantGroup := List (String × StyleDesc)

/-- First-match lookup of a value name inside a variant group. -/
def groupLookup (m : VariantGroup) (v : String) : Option StyleDesc :=
  (m.find? (fun e => e.1 = v)).map (fun e => e.2)

/-- First-match lookup of a declared variant group by its name. -/
def variantsLookupAux (variants : List (String × VariantGroup)) (g : String) :
    Option VariantGroup :=
  (variants.find? (fun e => e.1 = g)).map (fun e => e.2)

/-- First-match lookup in a string-to-string table (used for the
default-variant table). -/
def strLookup (m : List (String × String)) (k : String) : Option String :=
  (m.find? (fun e => e.1 = k)).map (fun e => e.2)

/-- A variant schema: base style description, declared variant groups in
declaration order, and the declared default value per group. -/
structure VariantSchema where
  base : StyleDesc
  variants : List (String × VariantGroup)
  defaultVariants : List (String × String)
deriving DecidableEq, Repr

/-- First-match lookup of a declared variant group of a schema by name. -/
def variantsLookup (S : VariantSchema) (g : String) : Option VariantGroup :=
  variantsLookupAux S.variants g

/-- The build-time error kind: raised for internally inconsistent schemas,
never at resolution time. -/
inductive BuildError where
  | configurationError : String → BuildError
deriving DecidableEq, Repr

/-- Modelled from the spec: `createVariants` (section 4.2) is part of
`../styledSystem`, which is not among the available sources.  Building a
schema validates that every `defaultVariants` entry names a value that exists
as a key of its variant group; a violation fails with a ConfigurationError at
schema-build time, before any resolution. -/
def createVariants (S : VariantSchema) : Except BuildError VariantSchema :=
  if S.defaultVariants.all (fun e =>
      match S.variants.find? (fun g => g.1 = e.1) with
      | some g => (groupLookup g.2 e.2).isSome
      | none => false) then
    Except.ok S
  else
    Except.error (BuildError.configurationError
      "defaultVariants references an undeclared variant value")

/-- Modelled from the spec: the effective value of a variant group (section
4.3 step 2) is the caller-supplied property when present and non-undefined
(stringified, as a JS key lookup would), else the group's declared default
(when one is declared). -/
def effectiveValue (S : VariantSchema) (props : PropBag) (g : String) :
    Option String :=
  match bagLookup props g with
  | some v =>
      match propToKey v with
      | some s => some s
      | none => strLookup S.defaultVariants g
  | none => strLookup S.defaultVariants g

/-- Resolution parameterised by a selection function: for each declared
group, in declaration order, merge the partial style its selected value names
on top of the accumulator; a selection that is not a key of the group
contributes nothing (section 4.3 steps 3-4). -/
def resolveSel (S : VariantSchema) (sel : String → Option String) : StyleDesc :=
  S.variants.foldl (fun acc gm =>
    match (sel gm.1).bind (fun v => groupLookup gm.2 v) with
    | some contrib => mergeDesc acc contrib
    | none => acc) S.base

/-- Modelled from the spec: `applyVariants` (section 4.3) resolves the
caller's property bag against the schema: starting from the base, each
declared group's effective value selects at most one partial style to merge. -/
def applyVariants (S : VariantSchema) (props : PropBag) : StyleDesc :=
  resolveSel S (effectiveValue S props)

/-- The resolution-time error kind that the no-contribution policy rules
out; carried by `applyVariantsE` to make "never raises" a statable fact. -/
inductive ResolutionError where
  | unrecognizedVariantValue : String → String → ResolutionError
deriving DecidableEq, Repr

/-- Resolution in an error monad: the same algorithm as `applyVariants` with
every step able, in principle, to signal a `ResolutionError`; following the
spec's no-contribution policy, the unrecognized-value branch returns the
accumulator unchanged instead of signalling. -/
def applyVariantsE (S : VariantSchema) (props : PropBag) :
    Except ResolutionError StyleDesc :=
  S.variants.foldlM (fun acc gm =>
    match effectiveValue S props gm.1 with
    | some v =>
        match groupLookup gm.2 v with
        | some contrib => pure (mergeDesc acc contrib)
        | none => pure acc
    | none => pure acc) S.base

/-- Whether a key names a declared variant group of the schema. -/
def isVariantGroupName (S : VariantSchema) (k : String) : Bool :=
  S.variants.any (fun g => g.1 = k)

/-- Modelled from the spec: `filterProps` (section 4.4) returns a new bag
holding every entry of the input except those whose key names a declared
variant group; the order of the remaining entries is preserved. -/
def filterProps (S : VariantSchema) (props : PropBag) : PropBag :=
  props.filter (fun e => !(isVariantGroupName S e.1))

/-- The default contributions, in declaration order: for each declared group,
the partial style description its declared default value selects, when it
selects one. -/
def defaultContribs (S : VariantSchema) : List StyleDesc :=
  S.variants.filterMap (fun gm =>
    (strLookup S.defaultVariants gm.1).bind (fun d => groupLookup gm.2 d))

/-- Build a style description from a list of entries. -/
def sdesc : List (String × StyleVal) → StyleDesc
  | [] => StyleDesc.nil
  | e :: rest => StyleDesc.cons e.1 e.2 (sdesc rest)

/-- Modelled from the spec: the CSS Variable Namer (section 4.1,
`createCssVariables` is not among the available sources) maps each logical
name to a stable identifier usable both as a declaring style-property key and
as a referencing value; distinct names get distinct identifiers. -/
def cssVar (n : String) : String := "--" ++ n

/-- The theme tokens the Badge schema factory dereferences, plus the shared
textVariants preset group (`common.textVariants(theme)`, section 4.5, not
among the available sources). -/
structure Theme where
  shadows_badge : String
  borders_normal : String
  radii_sm : String
  space_0x25 : String
  space_1x5 : String
  colors_neutralAlpha600 : String
  colors_neutralAlpha50 : String
  colors_neutralAlpha150 : String
  colors_danger500 : String
  colors_dangerAlpha50 : String
  colors_danger100 : String
  colors_success500 : String
  colors_successAlpha50 : String
  colors_success100 : String
  colors_warning500 : String
  colors_warningAlpha50 : String
  colors_warning100 : String
  textVariants : VariantGroup
deriving DecidableEq, Repr

/-- The Badge schema factory, embedded from `Badge.tsx`: base style, the
textVariant and colorScheme variant groups (in that declaration order), and
the declared defaults. -/
def badgeFactory (theme : Theme) : VariantSchema :=
  { base := sdesc
      [ ("color", StyleVal.str (cssVar "accent"))
      , ("flexShrink", StyleVal.num 0)
      , ("backgroundColor", StyleVal.str (cssVar "bg"))
      , ("boxShadow", StyleVal.str theme.shadows_badge)
      , ("border", StyleVal.str theme.borders_normal)
      , ("borderColor", StyleVal.str (cssVar "borderColor"))
      , ("borderRadius", StyleVal.str theme.radii_sm)
      , ("padding", StyleVal.str (theme.space_0x25 ++ " " ++ theme.space_1x5))
      , ("display", StyleVal.str "inline-flex")
      , ("marginRight", StyleVal.str "1px") ]
    variants :=
      [ ("textVariant", theme.textVariants)
      , ("colorScheme",
          [ ("primary", sdesc
              [ (cssVar "accent", StyleVal.str theme.colors_neutralAlpha600)
              , (cssVar "bg", StyleVal.str theme.colors_neutralAlpha50)
              , (cssVar "borderColor", StyleVal.str theme.colors_neutralAlpha150) ])
          , ("danger", sdesc
              [ (cssVar "accent", StyleVal.str theme.colors_danger500)
              , (cssVar "bg", StyleVal.str theme.colors_dangerAlpha50)
              , (cssVar "borderColor", StyleVal.str theme.colors_danger100) ])
          , ("success", sdesc
              [ (cssVar "accent", StyleVal.str theme.colors_success500)
              , (cssVar "bg", StyleVal.str theme.colors_successAlpha50)
              , (cssVar "borderColor", StyleVal.str theme.colors_success100) ])
          , ("warning", sdesc
              [ (cssVar "accent", StyleVal.str theme.colors_warning500)
              , (cssVar "bg", StyleVal.str theme.colors_warningAlpha50)
              , (cssVar "borderColor", StyleVal.str theme.colors_warning100) ]) ]) ]
    defaultVariants := [("colorScheme", "primary"), ("textVariant", "caption")] }

/-- A concrete theme binding for the Badge schema: distinct placeholder token
values (the engine never inspects token values, only forwards them) and a
small shared textVariants preset with a caption entry, as the Badge default
requires. -/
def badgeTheme : Theme :=
  { shadows_badge := "badge-shadow"
    borders_normal := "1px solid"
    radii_sm := "4px"
    space_0x25 := "1px"
    space_1x5 := "6px"
    colors_neutralAlpha600 := "neutralAlpha600"
    colors_neutralAlpha50 := "neutralAlpha50"
    colors_neutralAlpha150 := "neutralAlpha150"
    colors_danger500 := "danger500"
    colors_dangerAlpha50 := "dangerAlpha50"
    colors_danger100 := "danger100"
    colors_success500 := "success500"
    colors_successAlpha50 := "successAlpha50"
    colors_success100 := "success100"
    colors_warning500 := "warning500"
    colors_warningAlpha50 := "warningAlpha50"
    colors_warning100 := "warning100"
    textVariants :=
      [ ("caption", sdesc
          [ ("fontSize", StyleVal.str "11px")
          , ("fontWeight", StyleVal.num 400) ])
      , ("body", sdesc [("fontSize", StyleVal.str "13px")]) ] }

/-- The Badge schema bound to the concrete theme. -/
def badgeSchema : VariantSchema := badgeFactory badgeTheme

/-- What the Badge component hands to the underlying Flex primitive: the
filtered pass-through properties, the resolved css, and the data-color
attribute.  The fixed `center` and `as=span` attributes are rendering
concerns with no variant logic. -/
structure BadgeRender where
  forwarded : PropBag
  css : StyleDesc
  dataColor : PropVal
deriving DecidableEq, Repr

/-- The Badge component, embedded from `Badge.tsx`: it spreads
`filterProps(props)`, sets `css` from `applyVariants(props)`, and sets
`data-color` to `props.colorScheme || 'primary'` — the caller's value when
truthy, the string `primary` otherwise. -/
def Badge (S : VariantSchema) (props : PropBag) : BadgeRender :=
  { forwarded := filterProps S props
    css := applyVariants S props
    dataColor :=
      match bagLookup props "colorScheme" with
      | some v => if truthy v then v else PropVal.str "primary"
      | none => PropVal.str "primary" }

/-- The colorScheme group of the specification's worked example. -/
def exampleGroup : VariantGroup :=
  [ ("primary", sdesc [("accent", StyleVal.str "A")])
  , ("danger", sdesc [("accent", StyleVal.str "B")]) ]

/-- The schema of the specification's worked example: two colorScheme values
contributing distinct accent entries over an empty base, default primary. -/
def exampleSchema : VariantSchema :=
  { base := StyleDesc.nil
    variants := [("colorScheme", exampleGroup)]
    defaultVariants := [("colorScheme", "primary")] }

/-- A two-group schema whose groups collide: both defaults contribute the
same scalar key and both contribute a nested variable block under the same
key, with different inner variables. -/
def collisionSchema : VariantSchema :=
  { base := StyleDesc.nil
    variants :=
      [ ("size",
          [("md", sdesc
            [ ("fontWeight", StyleVal.str "400")
            , ("vars", StyleVal.nested (sdesc [("a", StyleVal.num 1)])) ])])
      , ("tone",
          [("plain", sdesc
            [ ("fontWeight", StyleVal.str "700")
            , ("vars", StyleVal.nested (sdesc [("b", StyleVal.num 2)])) ])]) ]
    defaultVariants := [("size", "md"), ("tone", "plain")] }

/-! ## Lookup lemmas for the merge operation -/

theorem lookup_append_of_some :
    ∀ {a : StyleDesc} (b : StyleDesc) {k : String} {v : StyleVal},
      a.lookup k = some v → (a.append b).lookup k = some v
  | StyleDesc.nil, _, _, _, h => by simp [StyleDesc.lookup] at h
  | StyleDesc.cons k0 v0 rest, b, k, v, h => by
      by_cases hk : k0 = k
      · simp [StyleDesc.lookup, hk] at h
        simp [StyleDesc.append, StyleDesc.lookup, hk, h]
      · simp [StyleDesc.lookup, hk] at h
        simp [StyleDesc.append, StyleDesc.lookup, hk,
          lookup_append_of_some b h]

theorem lookup_append_of_none :
    ∀ {a : StyleDesc} (b : StyleDesc) {k : String},
      a.lookup k = none → (a.append b).lookup k = b.lookup k
  | StyleDesc.nil, _, _, _ => by simp [StyleDesc.append]
  | StyleDesc.cons k0 v0 rest, b, k, h => by
      by_cases hk : k0 = k
      · simp [StyleDesc.lookup, hk] at h
      · simp [StyleDesc.lookup, hk] at h
        simp [StyleDesc.append, StyleDesc.lookup, hk,
          lookup_append_of_none b h]

theorem lookup_mergeOver_of_none :
    ∀ {a : StyleDesc} (b : StyleDesc) {k : String},
      a.lookup k = none → (mergeOver a b).lookup k = none
  | StyleDesc.nil, _, _, _ => by simp [mergeOver, StyleDesc.lookup]
  | StyleDesc.cons k0 v0 rest, b, k, h => by
      by_cases hk : k0 = k
      · simp [StyleDesc.lookup, hk] at h
      · simp [StyleDesc.lookup, hk] at h
        have ih := lookup_mergeOver_of_none (a := rest) b h
        cases hb : b.lookup k0 <;>
          simp [mergeOver, hb, StyleDesc.lookup, hk, ih]

theorem lookup_mergeOver_some_some :
    ∀ {a : StyleDesc} (b : StyleDesc) {k : String} {v w : StyleVal},
      a.lookup k = some v → b.lookup k = some w →
      (mergeOver a b).lookup k = some (mergeVal v w)
  | StyleDesc.nil, _, _, _, _, ha, _ => by simp [StyleDesc.lookup] at ha
  | StyleDesc.cons k0 v0 rest, b, k, v, w, ha, hb => by
      by_cases hk : k0 = k
      · simp [StyleDesc.lookup, hk] at ha
        subst hk
        simp [mergeOver, hb, StyleDesc.lookup, ha]
      · simp [StyleDesc.lookup, hk] at ha
        have ih := lookup_mergeOver_some_some (a := rest) b ha hb
        cases hb0 : b.lookup k0 <;>
          simp [mergeOver, hb0, StyleDesc.lookup, hk, ih]

theorem lookup_mergeOver_some_none :
    ∀ {a : StyleDesc} (b : StyleDesc) {k : String} {v : StyleVal},
      a.lookup k = some v → b.lookup k = none →
      (mergeOver a b).lookup k = some v
  | StyleDesc.nil, _, _, _, ha, _ => by simp [StyleDesc.lookup] at ha
  | StyleDesc.cons k0 v0 rest, b, k, v, ha, hb => by
      by_cases hk : k0 = k
      · simp [StyleDesc.lookup, hk] at ha
        subst hk
        simp [mergeOver, hb, StyleDesc.lookup, ha]
      · simp [StyleDesc.lookup, hk] at ha
        have ih := lookup_mergeOver_some_none (a := rest) b ha hb
        cases hb0 : b.lookup k0 <;>
          simp [mergeOver, hb0, StyleDesc.lookup, hk, ih]

theorem lookup_removeKeys :
    ∀ {b : StyleDesc} (a : StyleDesc) (k : String),
      (b.removeKeys a).lookup k =
        if a.hasKey k then none else b.lookup k
  | StyleDesc.nil, a, k => by
      by_cases h : a.hasKey k <;> simp [StyleDesc.removeKeys, StyleDesc.lookup, h]
  | StyleDesc.cons k0 v0 rest, a, k => by
      by_cases hk : k0 = k
      · subst hk
        by_cases h : a.hasKey k0 <;>
          simp [StyleDesc.removeKeys, StyleDesc.lookup, h,
            lookup_removeKeys (b := rest) a k0]
      · by_cases h : a.hasKey k0 <;>
          simp [StyleDesc.removeKeys, StyleDesc.lookup, h, hk,
            lookup_removeKeys (b := rest) a k]

/-- Key-wise characterisation of the merge: the second description wins on a
collision (its value merged with the first description's value), keys found
only on one side pass through. -/
theorem lookup_mergeDesc (a b : StyleDesc) (k : String) :
    (mergeDesc a b).lookup k =
      match a.lookup k, b.lookup k with
      | some v, some w => some (mergeVal v w)
      | some v, none => some v
      | none, ob => ob := by
  cases ha : a.lookup k <;> cases hb : b.lookup k
  · have h1 := lookup_mergeOver_of_none b (k := k) ha
    have h2 := lookup_append_of_none (a := mergeOver a b) (b.removeKeys a) h1
    simp [mergeDesc, h2, lookup_removeKeys a k, StyleDesc.hasKey, ha, hb]
  · have h1 := lookup_mergeOver_of_none b (k := k) ha
    have h2 := lookup_append_of_none (a := mergeOver a b) (b.removeKeys a) h1
    simp [mergeDesc, h2, lookup_removeKeys a k, StyleDesc.hasKey, ha, hb]
  · have h1 := lookup_mergeOver_some_none b ha hb
    simp [mergeDesc, lookup_append_of_some (b.removeKeys a) h1]
  · have h1 := lookup_mergeOver_some_some b ha hb
    simp [mergeDesc, lookup_append_of_some (b.removeKeys a) h1]

theorem lookup_mergeDesc_of_right_none {b : StyleDesc} (a : StyleDesc)
    {k : String} (hb : b.lookup k = none) :
    (mergeDesc a b).lookup k = a.lookup k := by
  rw [lookup_mergeDesc]
  cases ha : a.lookup k <;> simp [hb]

theorem lookup_mergeDesc_of_left_none {a : StyleDesc} (b : StyleDesc)
    {k : String} (ha : a.lookup k = none) :
    (mergeDesc a b).lookup k = b.lookup k := by
  rw [lookup_mergeDesc]
  simp [ha]

/-- Two nested mappings under one key are merged key-by-key, not replaced. -/
theorem mergeVal_nested (a b : StyleDesc) :
    mergeVal (StyleVal.nested a) (StyleVal.nested b) =
      StyleVal.nested (mergeDesc a b) := by
  simp [mergeVal, mergeDesc]

/-- A non-nested value on the right always replaces the left value. -/
theorem mergeVal_scalar (v w : StyleVal)
    (hw : ∀ d : StyleDesc, w ≠ StyleVal.nested d) : mergeVal v w = w := by
  cases v <;> cases w <;> simp [mergeVal]
  exact absurd rfl (hw _)

/-! ## Resolution lemmas -/

/-- The resolution fold is the fold of the merges of the selected
contributions, taken in declaration order. -/
theorem foldl_step_eq_filterMap (sel : String → Option String) :
    ∀ (l : List (String × VariantGroup)) (acc : StyleDesc),
      l.foldl (fun acc gm =>
          match (sel gm.1).bind (fun x => groupLookup gm.2 x) with
          | some contrib => mergeDesc acc contrib
          | none => acc) acc
        = (l.filterMap (fun gm =>
            (sel gm.1).bind (fun x => groupLookup gm.2 x))).foldl mergeDesc acc
  | [], _ => rfl
  | gm :: l, acc => by
      cases hc : (sel gm.1).bind (fun x => groupLookup gm.2 x) <;>
        simp [List.foldl_cons, List.filterMap_cons, hc,
          foldl_step_eq_filterMap sel l]

/-- `resolveSel` merges exactly the contributions the selection picks, in
declaration order, on top of the base. -/
theorem resolveSel_eq_filterMap (S : VariantSchema) (sel : String → Option String) :
    resolveSel S sel
      = (S.variants.filterMap (fun gm =>
          (sel gm.1).bind (fun x => groupLookup gm.2 x))).foldl mergeDesc S.base :=
  foldl_step_eq_filterMap sel S.variants S.base

/-- On the empty property bag every group's effective value is its declared
default. -/
theorem effectiveValue_nil (S : VariantSchema) (g : String) :
    effectiveValue S [] g = strLookup S.defaultVariants g := rfl

/-- The error-monad resolution never leaves the ok branch and computes the
same style description as the pure resolution. -/
theorem applyVariantsE_eq_ok (S : VariantSchema) (props : PropBag) :
    applyVariantsE S props = Except.ok (applyVariants S props) := by
  show (S.variants.foldlM _ S.base : Except ResolutionError StyleDesc)
      = Except.ok (S.variants.foldl _ S.base)
  generalize S.base = acc
  induction S.variants generalizing acc with
  | nil => rfl
  | cons gm l ih =>
      cases hv : effectiveValue S props gm.1 with
      | none =>
          simp [List.foldlM_cons, List.foldl_cons, hv, Option.bind, ih]
      | some v =>
          cases hg : groupLookup gm.2 v <;>
            simp [List.foldlM_cons, List.foldl_cons, hv, hg, Option.bind, ih]

/-! ## Claims -/

/-- Claim C1: for every schema built by `createVariants` and every property
bag — including the empty bag and bags whose variant-selection keys carry
values not declared in any group — resolution returns a style description
and never raises: the error-monad run of the algorithm stays in the ok
branch and computes `applyVariants`. -/
theorem claim_C1_totality (S0 S : VariantSchema) (props : PropBag)
    (_hbuild : createVariants S0 = Except.ok S) :
    applyVariantsE S props = Except.ok (applyVariants S props) :=
  applyVariantsE_eq_ok S props

theorem claim_C1_totality_witness :
    createVariants exampleSchema = Except.ok exampleSchema
    ∧ applyVariantsE exampleSchema [("colorScheme", PropVal.str "nonexistent")]
        = Except.ok (applyVariants exampleSchema
            [("colorScheme", PropVal.str "nonexistent")]) :=
  ⟨rfl, claim_C1_totality exampleSchema exampleSchema
    [("colorScheme", PropVal.str "nonexistent")] rfl⟩

/-- Claim C2: on the empty property bag, resolution merges exactly the
default contributions — for each declared group in declaration order, the
partial style its declared default selects — on top of the base, and
nothing else from the variant groups. -/
theorem claim_C2_default_fallback (S : VariantSchema) :
    applyVariants S [] = (defaultContribs S).foldl mergeDesc S.base := by
  have h : effectiveValue S [] = fun g => strLookup S.defaultVariants g :=
    funext fun g => rfl
  show resolveSel S (effectiveValue S []) = _
  rw [h, resolveSel_eq_filterMap]
  rfl

/-- Claim C5 counterexample: with the worked example's schema
(colorScheme primary yields accent A, danger yields accent B, default
primary), resolving the bag with the undeclared value nonexistent does NOT
produce a style containing accent A — the caller-supplied value suppresses
the default, and the group contributes nothing. -/
theorem claim_C5_counterexample :
    (applyVariants exampleSchema
        [("colorScheme", PropVal.str "nonexistent")]).lookup "accent"
      ≠ some (StyleVal.str "A") := by decide

/-- Claim C5 amended: with the worked example's schema, resolving the bag
with the undeclared value nonexistent leaves the group with no contribution:
the result equals the base and contains no accent entry at all. -/
theorem claim_C5_amended :
    applyVariants exampleSchema [("colorScheme", PropVal.str "nonexistent")]
        = exampleSchema.base
    ∧ (applyVariants exampleSchema
        [("colorScheme", PropVal.str "nonexistent")]).lookup "accent" = none := by
  refine ⟨?_, ?_⟩ <;> decide

/-- Claim C7: filtering is disjoint and lossless on pass-through entries —
no entry of the filtered bag is keyed by a declared variant-group name, and
every entry of the input whose key is not a variant-group name is kept,
with its value, in the filtered bag.  (`filterProps` is a total function
over any bag by construction.) -/
theorem claim_C7_filter_disjointness (S : VariantSchema) (P : PropBag)
    (k : String) (v : PropVal) :
    ((k, v) ∈ filterProps S P → isVariantGroupName S k = false)
    ∧ ((k, v) ∈ P → isVariantGroupName S k = false →
        (k, v) ∈ filterProps S P) := by
  constructor
  · intro h
    have h2 := (List.mem_filter.mp h).2
    simpa using h2
  · intro hmem hng
    exact List.mem_filter.mpr ⟨hmem, by simp [hng]⟩

theorem claim_C7_filter_disjointness_witness :
    isVariantGroupName badgeSchema "id" = false
    ∧ ("id", PropVal.str "x") ∈ filterProps badgeSchema
        [("colorScheme", PropVal.str "danger"), ("id", PropVal.str "x")] :=
  ⟨(claim_C7_filter_disjointness badgeSchema
      [("colorScheme", PropVal.str "danger"), ("id", PropVal.str "x")]
      "id" (PropVal.str "x")).1 (by decide),
   (claim_C7_filter_disjointness badgeSchema
      [("colorScheme", PropVal.str "danger"), ("id", PropVal.str "x")]
      "id" (PropVal.str "x")).2 (by decide) (by decide)⟩

/-- Claim C8: filtering is idempotent — filtering an already filtered bag
changes nothing. -/
theorem claim_C8_filter_idempotent (S : VariantSchema) (P : PropBag) :
    filterProps S (filterProps S P) = filterProps S P := by
  simp [filterProps, List.filter_filter]

/-- Claim C10: the Badge component sets the data-color attribute to the
caller's colorScheme value whenever that value is truthy — even a truthy
value declared in no variant group is echoed verbatim — and to the string
primary when the key is absent or carries any falsy value. -/
theorem claim_C10_badge_data_color (S : VariantSchema) (P : PropBag)
    (v : PropVal) :
    (bagLookup P "colorScheme" = some v → truthy v = true →
        (Badge S P).dataColor = v)
    ∧ (bagLookup P "colorScheme" = some v → truthy v = false →
        (Badge S P).dataColor = PropVal.str "primary")
    ∧ (bagLookup P "colorScheme" = none →
        (Badge S P).dataColor = PropVal.str "primary") := by
  refine ⟨?_, ?_, ?_⟩
  · intro h1 h2
    simp [Badge, h1, h2]
  · intro h1 h2
    simp [Badge, h1, h2]
  · intro h1
    simp [Badge, h1]

theorem claim_C10_badge_data_color_witness :
    (Badge badgeSchema [("colorScheme", PropVal.str "weird")]).dataColor
        = PropVal.str "weird"
    ∧ (Badge badgeSchema [("colorScheme", PropVal.str "")]).dataColor
        = PropVal.str "primary"
    ∧ (Badge badgeSchema []).dataColor = PropVal.str "primary" :=
  ⟨(claim_C10_badge_data_color badgeSchema
      [("colorScheme", PropVal.str "weird")] (PropVal.str "weird")).1 rfl rfl,
   (claim_C10_badge_data_color badgeSchema
      [("colorScheme", PropVal.str "")] (PropVal.str "")).2.1 rfl rfl,
   (claim_C10_badge_data_color badgeSchema [] (PropVal.str "x")).2.2 rfl⟩

/-- Claim C3: supplying a declared value for a group resolves with that
value selected for the group — merging that group's entry for the supplied
value in place of the default contribution, every other group still
contributing its default — and supplying an explicit undefined for the
group resolves exactly as omitting the key. -/
theorem claim_C3_override_precedence (S : VariantSchema) (g x : String)
    (m : VariantGroup) (contrib : StyleDesc)
    (_hm : variantsLookup S g = some m)
    (_hx : groupLookup m x = some contrib) :
    applyVariants S [(g, PropVal.str x)]
      = (S.variants.filterMap (fun gm =>
          if gm.1 = g then groupLookup gm.2 x
          else (strLookup S.defaultVariants gm.1).bind
            (fun d => groupLookup gm.2 d))).foldl mergeDesc S.base
    ∧ applyVariants S [(g, PropVal.undef)] = applyVariants S [] := by
  constructor
  · have hsel : effectiveValue S [(g, PropVal.str x)]
        = fun y => if y = g then some x else strLookup S.defaultVariants y := by
      funext y
      by_cases hy : y = g
      · subst hy
        simp [effectiveValue, bagLookup, propToKey]
      · have hgy : g ≠ y := Ne.symm hy
        simp [effectiveValue, bagLookup, hy, hgy]
    have hfun : (fun gm : String × VariantGroup =>
          (if gm.1 = g then some x else strLookup S.defaultVariants gm.1).bind
            (fun z => groupLookup gm.2 z))
        = fun gm =>
            if gm.1 = g then groupLookup gm.2 x
            else (strLookup S.defaultVariants gm.1).bind
              (fun d => groupLookup gm.2 d) := by
      funext gm
      by_cases hgm : gm.1 = g <;> simp [hgm]
    exact (congrArg (resolveSel S) hsel).trans
      ((resolveSel_eq_filterMap S _).trans
        (congrArg
          (fun f => (List.filterMap f S.variants).foldl mergeDesc S.base)
          hfun))
  · have hsel : effectiveValue S [(g, PropVal.undef)] = effectiveValue S [] := by
      funext y
      by_cases hy : y = g
      · subst hy
        simp [effectiveValue, bagLookup, propToKey]
      · have hgy : g ≠ y := Ne.symm hy
        simp [effectiveValue, bagLookup, hy, hgy]
    exact congrArg (resolveSel S) hsel

theorem claim_C3_override_precedence_witness :
    variantsLookup exampleSchema "colorScheme" = some exampleGroup
    ∧ groupLookup exampleGroup "danger"
        = some (sdesc [("accent", StyleVal.str "B")])
    ∧ applyVariants exampleSchema [("colorScheme", PropVal.undef)]
        = applyVariants exampleSchema [] :=
  ⟨rfl, rfl,
    (claim_C3_override_precedence exampleSchema "colorScheme" "danger"
      exampleGroup (sdesc [("accent", StyleVal.str "B")]) rfl rfl).2⟩

/-- Claim C4: a variant group whose effective value selects no entry of its
mapping contributes nothing: the resolved style equals the resolution of
the same schema with that group removed — the remaining groups over the
base — with no failure for that group. -/
theorem claim_C4_no_contribution (S : VariantSchema) (P : PropBag)
    (vs1 vs2 : List (String × VariantGroup)) (g : String) (m : VariantGroup)
    (hsplit : S.variants = vs1 ++ (g, m) :: vs2)
    (hnone : (effectiveValue S P g).bind (fun x => groupLookup m x) = none) :
    applyVariants S P
      = applyVariants { S with variants := vs1 ++ vs2 } P := by
  show resolveSel S (effectiveValue S P)
      = resolveSel { S with variants := vs1 ++ vs2 }
          (effectiveValue { S with variants := vs1 ++ vs2 } P)
  have hsame : effectiveValue { S with variants := vs1 ++ vs2 } P
      = effectiveValue S P := rfl
  rw [hsame]
  simp [resolveSel, hsplit, List.foldl_append, List.foldl_cons, hnone]

theorem claim_C4_no_contribution_witness :
    (effectiveValue exampleSchema
        [("colorScheme", PropVal.str "nonexistent")] "colorScheme").bind
      (fun x => groupLookup exampleGroup x) = none
    ∧ applyVariants exampleSchema [("colorScheme", PropVal.str "nonexistent")]
        = applyVariants { exampleSchema with variants := [] ++ [] }
            [("colorScheme", PropVal.str "nonexistent")] :=
  ⟨rfl,
    claim_C4_no_contribution exampleSchema
      [("colorScheme", PropVal.str "nonexistent")] [] [] "colorScheme"
      exampleGroup rfl rfl⟩

/-- Claim C6: when two declared groups both contribute the same
style-property key, the later group wins on that key whenever its value is
not a nested mapping; and when both contribute nested mappings under one
key, the result nests their key-by-key merge — entries of either block
survive whenever the other block lacks their key, instead of the later
block replacing the earlier wholesale. -/
theorem claim_C6_later_group_wins (S : VariantSchema) (P : PropBag)
    (g1 g2 : String) (m1 m2 : VariantGroup) (c1 c2 : StyleDesc)
    (k kn : String) (w : StyleVal) (d1 d2 : StyleDesc)
    (hvars : S.variants = [(g1, m1), (g2, m2)])
    (h1 : (effectiveValue S P g1).bind (fun x => groupLookup m1 x) = some c1)
    (h2 : (effectiveValue S P g2).bind (fun x => groupLookup m2 x) = some c2)
    (hbk : S.base.lookup k = none)
    (hc2k : c2.lookup k = some w)
    (hw : ∀ d : StyleDesc, w ≠ StyleVal.nested d)
    (hbkn : S.base.lookup kn = none)
    (hc1n : c1.lookup kn = some (StyleVal.nested d1))
    (hc2n : c2.lookup kn = some (StyleVal.nested d2)) :
    (applyVariants S P).lookup k = some w
    ∧ (applyVariants S P).lookup kn
        = some (StyleVal.nested (mergeDesc d1 d2))
    ∧ (∀ k2 : String, d2.lookup k2 = none →
        (mergeDesc d1 d2).lookup k2 = d1.lookup k2)
    ∧ (∀ k2 : String, d1.lookup k2 = none →
        (mergeDesc d1 d2).lookup k2 = d2.lookup k2) := by
  have hA : applyVariants S P = mergeDesc (mergeDesc S.base c1) c2 := by
    show resolveSel S (effectiveValue S P) = _
    simp [resolveSel, hvars, List.foldl_cons, h1, h2]
  have hX1 : (mergeDesc S.base c1).lookup k = c1.lookup k :=
    lookup_mergeDesc_of_left_none c1 hbk
  have hXn : (mergeDesc S.base c1).lookup kn = c1.lookup kn :=
    lookup_mergeDesc_of_left_none c1 hbkn
  refine ⟨?_, ?_, ?_, ?_⟩
  · rw [hA, lookup_mergeDesc, hX1, hc2k]
    cases hc1k : c1.lookup k <;> simp [mergeVal_scalar _ w hw]
  · rw [hA, lookup_mergeDesc, hXn, hc1n, hc2n]
    simp [mergeVal_nested]
  · exact fun k2 h => lookup_mergeDesc_of_right_none d1 h
  · exact fun k2 h => lookup_mergeDesc_of_left_none d2 h

theorem claim_C6_later_group_wins_witness :
    (applyVariants collisionSchema []).lookup "fontWeight"
        = some (StyleVal.str "700")
    ∧ (applyVariants collisionSchema []).lookup "vars"
        = some (StyleVal.nested (mergeDesc (sdesc [("a", StyleVal.num 1)])
            (sdesc [("b", StyleVal.num 2)])))
    ∧ (mergeDesc (sdesc [("a", StyleVal.num 1)])
          (sdesc [("b", StyleVal.num 2)])).lookup "a"
        = (sdesc [("a", StyleVal.num 1)]).lookup "a"
    ∧ (mergeDesc (sdesc [("a", StyleVal.num 1)])
          (sdesc [("b", StyleVal.num 2)])).lookup "b"
        = (sdesc [("b", StyleVal.num 2)]).lookup "b" := by
  have h := claim_C6_later_group_wins collisionSchema [] "size" "tone"
    [("md", sdesc
      [ ("fontWeight", StyleVal.str "400")
      , ("vars", StyleVal.nested (sdesc [("a", StyleVal.num 1)])) ])]
    [("plain", sdesc
      [ ("fontWeight", StyleVal.str "700")
      , ("vars", StyleVal.nested (sdesc [("b", StyleVal.num 2)])) ])]
    (sdesc
      [ ("fontWeight", StyleVal.str "400")
      , ("vars", StyleVal.nested (sdesc [("a", StyleVal.num 1)])) ])
    (sdesc
      [ ("fontWeight", StyleVal.str "700")
      , ("vars", StyleVal.nested (sdesc [("b", StyleVal.num 2)])) ])
    "fontWeight" "vars" (StyleVal.str "700")
    (sdesc [("a", StyleVal.num 1)]) (sdesc [("b", StyleVal.num 2)])
    rfl rfl rfl rfl rfl (fun d hcontra => by cases hcontra) rfl rfl rfl
  exact ⟨h.1, h.2.1, h.2.2.1 "a" rfl, h.2.2.2 "b" rfl⟩

/-- Claim C9: building a schema whose defaultVariants maps a group to a
value that is not a key of that group's mapping fails with a
ConfigurationError at schema-build time; and no resolution call raises —
for every schema the resolution algorithm stays in the ok branch, so a
ConfigurationError can never come out of resolving a built schema. -/
theorem claim_C9_build_rejection (S : VariantSchema) (g d : String)
    (m : VariantGroup)
    (hd : (g, d) ∈ S.defaultVariants)
    (hm : variantsLookup S g = some m)
    (hbad : groupLookup m d = none) :
    createVariants S = Except.error (BuildError.configurationError
        "defaultVariants references an undeclared variant value")
    ∧ ∀ (T : VariantSchema) (P : PropBag),
        applyVariantsE T P = Except.ok (applyVariants T P) := by
  constructor
  · have hfalse : S.defaultVariants.all (fun e =>
        match S.variants.find? (fun g2 => g2.1 = e.1) with
        | some gEntry => (groupLookup gEntry.2 e.2).isSome
        | none => false) = false := by
      rcases Option.map_eq_some'.mp hm with ⟨e, he, he2⟩
      refine List.all_eq_false.mpr ⟨(g, d), hd, ?_⟩
      simp [he, he2, hbad]
    unfold createVariants
    rw [if_neg]
    simp [hfalse]
  · exact fun T P => applyVariantsE_eq_ok T P

theorem claim_C9_build_rejection_witness :
    createVariants { exampleSchema with
        defaultVariants := [("colorScheme", "bogus")] }
      = Except.error (BuildError.configurationError
          "defaultVariants references an undeclared variant value")
    ∧ applyVariantsE exampleSchema [] = Except.ok (applyVariants exampleSchema []) := by
  have h := claim_C9_build_rejection
    { exampleSchema with defaultVariants := [("colorScheme", "bogus")] }
    "colorScheme" "bogus" exampleGroup (by decide) rfl rfl
  exact ⟨h.1, h.2 exampleSchema []⟩

end StyledSystem
